import Mathlib

set_option maxRecDepth 8000

/-! Verification development for the SWITRS sqlite DB builder
(`src/schema.rs`): templated DDL table creation, CSV bulk loading and
lookup-table initialization, proven over a shallow embedding of the code
with an explicit model of the sqlite connection state. -/

/-- SQL parameter value bound for one CSV cell: rusqlite binds
`Option<&str>`, so a cell is either NULL or verbatim text. -/
inductive Value
  | null
  | text (s : String)
deriving DecidableEq, Repr

/-- Left brace character, the opening placeholder marker. -/
def lbrace : Char := Char.ofNat 123

/-- Right brace character, the closing placeholder marker. -/
def rbrace : Char := Char.ofNat 125

/-- ASCII whitespace recognized by the csv reader's trimming. -/
def isWs (c : Char) : Bool := c = ' ' || c = '\t' || c = '\n' || c = '\r'

/-- Trim leading and trailing whitespace from a character list. -/
def trimChars (l : List Char) : List Char :=
  ((l.dropWhile isWs).reverse.dropWhile isWs).reverse

/-- Modelled from the spec: the csv reader is configured with `Trim::All`,
so every header cell and data cell is trimmed of surrounding whitespace. -/
def strTrim (s : String) : String := String.mk (trimChars s.data)

/-- Association-list lookup for substitution maps (the `HashMap` of
`create_table` is only ever read through key lookup). -/
def lookupSub : List (String × String) → String → Option String
  | [], _ => none
  | (k, v) :: rest, n => if k = n then some v else lookupSub rest n

/-- Errors of the template renderer, per the spec's 4.1 contract. -/
inductive TemplateError
  | missingPlaceholder (name : String)
  | unterminated
deriving DecidableEq, Repr

mutual

/-- Modelled from the spec: the `new_string_template` renderer used by
`create_table` (the crate is a dependency, not in `src/`). Text outside
placeholder markers passes through verbatim; a marker is a name between
braces; a referenced name absent from the substitutions is an error, as is
an unterminated opening marker. -/
def renderChars (subs : List (String × String)) : List Char → Except TemplateError (List Char)
  | [] => .ok []
  | c :: rest =>
    if c = lbrace then renderHole subs [] rest
    else (renderChars subs rest).map fun out => c :: out
termination_by structural l => l

/-- Scanner state inside a placeholder marker: `acc` holds the name
characters read so far, in reverse. -/
def renderHole (subs : List (String × String)) (acc : List Char) : List Char → Except TemplateError (List Char)
  | [] => .error .unterminated
  | c :: rest =>
    if c = rbrace then
      match lookupSub subs (String.mk acc.reverse) with
      | none => .error (.missingPlaceholder (String.mk acc.reverse))
      | some v => (renderChars subs rest).map fun out => v.data ++ out
    else renderHole subs (c :: acc) rest
termination_by structural l => l

end

/-- Render a template against a substitution map (`Template::render`). -/
def render (template : String) (subs : List (String × String)) : Except TemplateError String :=
  (renderChars subs template.data).map String.mk

/-- Specification-side decomposition of a template: literal runs and
placeholder markers. -/
inductive Seg
  | lit (s : String)
  | hole (name : String)
deriving DecidableEq, Repr

/-- The template text a segment list denotes. -/
def segsToChars : List Seg → List Char
  | [] => []
  | .lit s :: rest => s.data ++ segsToChars rest
  | .hole n :: rest => lbrace :: (n.data ++ (rbrace :: segsToChars rest))

/-- The spec's expected rendering: literals verbatim, each placeholder
replaced by its mapped value. -/
def substChars (subs : List (String × String)) : List Seg → List Char
  | [] => []
  | .lit s :: rest => s.data ++ substChars subs rest
  | .hole n :: rest => ((lookupSub subs n).getD "").data ++ substChars subs rest

/-- Well-formed decomposition: literals carry no opening marker and
placeholder names carry no closing marker. -/
def segsWf : List Seg → Bool
  | [] => true
  | .lit s :: rest => s.data.all (fun c => decide (c ≠ lbrace)) && segsWf rest
  | .hole n :: rest => n.data.all (fun c => decide (c ≠ rbrace)) && segsWf rest

/-- Every placeholder of the decomposition is covered by the map. -/
def holesCovered (subs : List (String × String)) : List Seg → Bool
  | [] => true
  | .lit _ :: rest => holesCovered subs rest
  | .hole n :: rest => (lookupSub subs n).isSome && holesCovered subs rest

/-- One table of the in-memory database model: each stored row is the
column/value binding list its INSERT produced. -/
structure Table where
  rows : List (List (String × Value))
deriving DecidableEq, Repr

/-- A stored row: column/value bindings in INSERT column-list order. -/
abbrev Row := List (String × Value)

/-- The connection state: tables keyed by name. -/
abbrev DB := List (String × Table)

/-- Error kinds surfaced by the schema operations (`Box<dyn Error>` in the
source, split by origin as in the spec's section 7). -/
inductive Err
  | io (path : String)
  | template (e : TemplateError)
  | database (msg : String)
deriving DecidableEq, Repr

instance instDecEqExcept {ε α : Type} [DecidableEq ε] [DecidableEq α] :
    DecidableEq (Except ε α)
  | .error a, .error b =>
    if h : a = b then isTrue (by rw [h]) else isFalse (by simp [h])
  | .error _, .ok _ => isFalse (by simp)
  | .ok _, .error _ => isFalse (by simp)
  | .ok a, .ok b =>
    if h : a = b then isTrue (by rw [h]) else isFalse (by simp [h])

/-- Look a table up by name. -/
def lookupTable : DB → String → Option Table
  | [], _ => none
  | (n, t) :: rest, name => if n = name then some t else lookupTable rest name

/-- Append one row to the named table, leaving every other table alone. -/
def dbAppendRow : DB → String → Row → DB
  | [], _, _ => []
  | (n, t) :: rest, name, row =>
    if n = name then (n, Table.mk (t.rows ++ [row])) :: rest
    else (n, t) :: dbAppendRow rest name row

/-- Modelled from the spec: the database engine's per-INSERT constraint
checking (primary keys, foreign keys, types) is external to the source, so
it is abstracted as a predicate consulted on each attempted insert. -/
abbrev ConstraintOk := DB → String → Row → Bool

/-- Modelled from the spec: executing a prepared parameterized INSERT.
It fails when the target table is absent or the engine's constraint check
rejects the row; on success the row is appended. -/
def dbInsert (ok : ConstraintOk) (db : DB) (name : String) (row : Row) : Except Err DB :=
  match lookupTable db name with
  | none => .error (.database ("no such table: " ++ name))
  | some _ =>
    if ok db name row then .ok (dbAppendRow db name row)
    else .error (.database "constraint violation")

/-- Drop a matching leading character sequence, returning the remainder. -/
def stripLeading : List Char → List Char → Option (List Char)
  | [], l => some l
  | _ :: _, [] => none
  | p :: ps, c :: cs => if c = p then stripLeading ps cs else none

/-- Modelled from the spec: minimal parse of a rendered DDL text as one
CREATE TABLE statement, recording whether it tolerates re-creation
(IF NOT EXISTS) and the created table's name. -/
def parseCreate (sql : String) : Option (Bool × String) :=
  match stripLeading "CREATE TABLE ".data (trimChars sql.data) with
  | none => none
  | some rest =>
    let p := match stripLeading "IF NOT EXISTS ".data rest with
      | some r => (true, r)
      | none => (false, rest)
    let nameCs := p.2.takeWhile fun c => !(isWs c || c = '(' || c = ';')
    if nameCs = [] then none else some (p.1, String.mk nameCs)

/-- Modelled from the spec: `Connection::execute_batch` on a rendered DDL
text — a plain CREATE TABLE fails when the table already exists, an
IF NOT EXISTS one is a no-op then, and unparseable DDL is a database
error. -/
def execBatch (db : DB) (sql : String) : Except Err DB :=
  match parseCreate sql with
  | none => .error (.database ("malformed DDL: " ++ sql))
  | some (ine, tname) =>
    match lookupTable db tname with
    | some _ => if ine then .ok db else .error (.database ("table exists: " ++ tname))
    | none => .ok (db ++ [(tname, Table.mk [])])

/-- `create_table` from `src/schema.rs`: read the DDL template file,
render it with the `table` and `pk_type` substitutions, and execute the
rendered text against the connection. `fsT` models the file system's
template files. -/
def create_table (fsT : String → Option String) (db : DB) (name pk_type : String)
    (table_schema : String) : Except Err DB :=
  match fsT table_schema with
  | none => .error (.io table_schema)
  | some ddl =>
    match render ddl [("table", name), ("pk_type", pk_type)] with
    | .error e => .error (.template e)
    | .ok rendered => execBatch db rendered

/-- A CSV file as the configured csv reader delivers it: the header record
and the data records (the reader itself enforces that every record has the
header's column count, and trimming is applied on read). -/
structure CSVFile where
  headers : List String
  records : List (List String)
deriving DecidableEq, Repr

/-- The per-cell conversion of `load_data`: an empty string becomes NULL,
anything else is bound verbatim as text. -/
def cellParam (s : String) : Value := if s = "" then Value.null else Value.text s

/-- The column/value bindings one record's INSERT carries: header names
zipped with the converted cell parameters. -/
def mkRow (headers record : List String) : Row := headers.zip (record.map cellParam)

/-- State of the statement-building loop over the header record. -/
structure StmtBuild where
  fields : String
  values : String
  first : Bool
  field_count : Nat
deriving DecidableEq, Repr

/-- One iteration of the header loop in `load_data`: push a separator
unless first, then the field name and a `?` placeholder. -/
def buildStep (st : StmtBuild) (f : String) : StmtBuild :=
  let st1 := if st.first then { st with first := false }
             else { st with fields := st.fields ++ ", ", values := st.values ++ ", " }
  { st1 with fields := st1.fields ++ f, values := st1.values.push '?',
             field_count := st1.field_count + 1 }

/-- The header loop of `load_data`, folded over the header record. -/
def buildStmt (headers : List String) : StmtBuild :=
  headers.foldl buildStep (StmtBuild.mk "" "" true 0)

/-- The INSERT text `load_data` formats:
INSERT INTO name (fields) VALUES(values). -/
def insertStmtText (name : String) (headers : List String) : String :=
  let bs := buildStmt headers
  "INSERT INTO " ++ name ++ " (" ++ bs.fields ++ ") VALUES(" ++ bs.values ++ ")"

/-- Comma-separated rendering of a name list (specification-side reading
of the built column list). -/
def restComma : List String → String
  | [] => ""
  | x :: rest => ", " ++ x ++ restComma rest

/-- Comma-separated list: the head followed by comma-prefixed tail. -/
def commaSep : List String → String
  | [] => ""
  | x :: rest => x ++ restComma rest

/-- Outcome of one `load_data` call: the returned result, the connection
state after it, the SQL texts prepared, and the per-row failure
diagnostics printed (header/value pairs of each failing row). -/
structure LoadOutcome where
  result : Except Err Nat
  db : DB
  prepared : List String
  log : List (List (String × String))
deriving DecidableEq, Repr

/-- The record loop of `load_data`: insert each record through the
prepared statement, counting successes, stopping at the first failure and
logging that row's column/value pairs. -/
def loadRows (ok : ConstraintOk) (name : String) (headers : List String)
    (prep : List String) : DB → List (List String) → Nat → LoadOutcome
  | db, [], count => LoadOutcome.mk (.ok count) db prep []
  | db, record :: rest, count =>
    match dbInsert ok db name (mkRow headers record) with
    | .ok db1 => loadRows ok name headers prep db1 rest (count + 1)
    | .error e => LoadOutcome.mk (.error e) db prep [headers.zip record]

/-- `load_data` from `src/schema.rs`: read the CSV file (headers and cells
trimmed), build the parameterized INSERT over the header columns, return 0
without touching the database when the header has no columns, otherwise
prepare the statement and insert every record. `csvFs` models the file
system's CSV files. -/
def load_data (ok : ConstraintOk) (csvFs : String → Option CSVFile) (db : DB)
    (name : String) (table_data : String) : LoadOutcome :=
  match csvFs table_data with
  | none => LoadOutcome.mk (.error (.io table_data)) db [] []
  | some file =>
    let headers := file.headers.map strTrim
    let bs := buildStmt headers
    if bs.field_count = 0 then LoadOutcome.mk (.ok 0) db [] []
    else
      let stmt := insertStmtText name headers
      match lookupTable db name with
      | none => LoadOutcome.mk (.error (.database ("no such table: " ++ name))) db [stmt] []
      | some _ => loadRows ok name headers [stmt] db (file.records.map (List.map strTrim)) 0

/-- A lookup-table entry of the declarative schema: primary-key type, CSV
data path, optional DDL template override. -/
structure LookupTable where
  pk_type : String
  data : String
  schema : Option String
deriving DecidableEq, Repr

/-- Outcome of `init_lookup_tables`: result and final connection state. -/
structure InitOutcome where
  result : Except Err Unit
  db : DB
deriving DecidableEq, Repr

/-- One entry's processing in `init_lookup_tables`: resolve the entry's
DDL template (its own override when present, else the shared default),
create the table, then load its data; the first failing step's error is
returned with the state it left behind. -/
def processEntry (ok : ConstraintOk) (fsT : String → Option String)
    (csvFs : String → Option CSVFile) (table_schema : String) (db : DB)
    (name : String) (t : LookupTable) : InitOutcome :=
  match create_table fsT db name t.pk_type (t.schema.getD table_schema) with
  | .error e => InitOutcome.mk (.error e) db
  | .ok db1 =>
    let lo := load_data ok csvFs db1 name t.data
    match lo.result with
    | .error e => InitOutcome.mk (.error e) lo.db
    | .ok _ => InitOutcome.mk (.ok ()) lo.db

/-- `init_lookup_tables` from `src/schema.rs`: process each lookup-table
entry in iteration order, stopping at the first failure. -/
def init_lookup_tables (ok : ConstraintOk) (fsT : String → Option String)
    (csvFs : String → Option CSVFile) (table_schema : String) :
    DB → List (String × LookupTable) → InitOutcome
  | db, [] => InitOutcome.mk (.ok ()) db
  | db, (name, t) :: rest =>
    let p := processEntry ok fsT csvFs table_schema db name t
    match p.result with
    | .error e => InitOutcome.mk (.error e) p.db
    | .ok _ => init_lookup_tables ok fsT csvFs table_schema p.db rest

/-- A constraint oracle that accepts every insert. -/
def okTrue : ConstraintOk := fun _ _ _ => true

/-- A constraint oracle that rejects every insert. -/
def okFalse : ConstraintOk := fun _ _ _ => false

/-- A tiny concrete CSV file: two columns, two records, one empty cell and
cells with surrounding whitespace. -/
def csvA : CSVFile := CSVFile.mk ["a", " b "] [["1", ""], ["2", " x "]]

/-- Concrete CSV file with the same header as `csvA` but other records. -/
def csvB : CSVFile := CSVFile.mk ["a", " b "] [["9", "-"]]

/-- File system carrying `csvA` at path data.csv. -/
def fsCsvA : String → Option CSVFile := fun p => if p = "data.csv" then some csvA else none

/-- File system carrying `csvB` at path data.csv. -/
def fsCsvB : String → Option CSVFile := fun p => if p = "data.csv" then some csvB else none

/-- File system carrying a zero-column CSV file at path data.csv. -/
def fsCsvEmpty : String → Option CSVFile :=
  fun p => if p = "data.csv" then some (CSVFile.mk [] []) else none

/-- A database holding one empty table named t. -/
def db0 : DB := [("t", Table.mk [])]

/-- A plain CREATE TABLE template over the table and pk_type placeholders. -/
def tmplPlain : String := "CREATE TABLE \x7btable\x7d (id \x7bpk_type\x7d)"

/-- A re-creation-tolerant CREATE TABLE IF NOT EXISTS template. -/
def tmplIne : String := "CREATE TABLE IF NOT EXISTS \x7btable\x7d (id \x7bpk_type\x7d)"

/-- File system carrying the plain template at path pk.sql. -/
def fsPlain : String → Option String := fun p => if p = "pk.sql" then some tmplPlain else none

/-- File system carrying the IF NOT EXISTS template at path pk.sql. -/
def fsIne : String → Option String := fun p => if p = "pk.sql" then some tmplIne else none

/-- One concrete lookup-table mapping entry. -/
def entries0 : List (String × LookupTable) :=
  [("u", LookupTable.mk "CHAR(1)" "data.csv" none)]

/-- Segment decomposition of the plain template. -/
def segs9 : List Seg :=
  [Seg.lit "CREATE TABLE ", Seg.hole "table", Seg.lit " (id ", Seg.hole "pk_type",
   Seg.lit ")"]

/-- Substitutions covering both placeholders of `segs9`. -/
def subs9 : List (String × String) := [("table", "day_of_week"), ("pk_type", "CHAR(1)")]

/-! Helper lemmas. -/

theorem strMkData (s : String) : String.mk s.data = s := by
  cases s
  rfl

theorem strDataEmpty : ("" : String).data = [] := rfl

theorem strDataQ : ("?" : String).data = [Char.ofNat 63] := rfl

theorem lookupTable_dbAppendRow_self (db : DB) (name : String) (row : Row) (t : Table)
    (h : lookupTable db name = some t) :
    lookupTable (dbAppendRow db name row) name = some (Table.mk (t.rows ++ [row])) := by
  induction db with
  | nil => simp [lookupTable] at h
  | cons hd rest ih =>
    obtain ⟨n, tt⟩ := hd
    by_cases hn : n = name
    · subst hn
      simp [lookupTable] at h
      subst h
      simp [dbAppendRow, lookupTable]
    · simp [lookupTable, hn] at h
      simp [dbAppendRow, lookupTable, hn]
      exact ih h

theorem lookupTable_dbAppendRow_isSome (db : DB) (name tn : String) (row : Row) :
    (lookupTable (dbAppendRow db name row) tn).isSome = (lookupTable db tn).isSome := by
  induction db with
  | nil => simp [dbAppendRow]
  | cons hd rest ih =>
    obtain ⟨n, tt⟩ := hd
    by_cases hn : n = name
    · subst hn
      by_cases ht : n = tn <;> simp [dbAppendRow, lookupTable, ht]
    · by_cases ht : n = tn
      · subst ht
        simp [dbAppendRow, lookupTable, hn]
      · simp [dbAppendRow, lookupTable, hn, ht, ih]

theorem lookupTable_append_none (db : DB) (k : String) (t : Table)
    (h : lookupTable db k = none) :
    lookupTable (db ++ [(k, t)]) k = some t := by
  induction db with
  | nil => simp [lookupTable]
  | cons hd rest ih =>
    obtain ⟨n, tt⟩ := hd
    by_cases hn : n = k
    · subst hn; simp [lookupTable] at h
    · simp [lookupTable, hn] at h ⊢
      exact ih h

theorem lookupTable_append_isSome (db l : DB) (tn : String)
    (h : (lookupTable db tn).isSome = true) :
    (lookupTable (db ++ l) tn).isSome = true := by
  induction db with
  | nil => simp [lookupTable] at h
  | cons hd rest ih =>
    obtain ⟨n, tt⟩ := hd
    by_cases hn : n = tn
    · simp [lookupTable, hn]
    · simp [lookupTable, hn] at h ⊢
      exact ih h

theorem loadRows_prepared (ok : ConstraintOk) (name : String) (headers : List String)
    (prep : List String) (recs : List (List String)) :
    ∀ (db : DB) (count : Nat),
      (loadRows ok name headers prep db recs count).prepared = prep := by
  induction recs with
  | nil => intro db count; simp [loadRows]
  | cons r rs ih =>
    intro db count
    cases h : dbInsert ok db name (mkRow headers r) with
    | ok db1 => simp [loadRows, h, ih]
    | error e => simp [loadRows, h]

theorem loadRows_ok_spec (ok : ConstraintOk) (name : String) (headers : List String)
    (prep : List String) (recs : List (List String)) :
    ∀ (db : DB) (count : Nat) (t : Table) (n : Nat),
      lookupTable db name = some t →
      (loadRows ok name headers prep db recs count).result = .ok n →
      n = count + recs.length ∧
      lookupTable (loadRows ok name headers prep db recs count).db name
        = some (Table.mk (t.rows ++ recs.map (mkRow headers))) ∧
      (loadRows ok name headers prep db recs count).log = [] := by
  induction recs with
  | nil =>
    intro db count t n ht hr
    simp [loadRows] at hr ⊢
    exact ⟨hr.symm, ht⟩
  | cons r rs ih =>
    intro db count t n ht hr
    have hins : dbInsert ok db name (mkRow headers r)
        = if ok db name (mkRow headers r) then .ok (dbAppendRow db name (mkRow headers r))
          else .error (.database "constraint violation") := by
      simp [dbInsert, ht]
    by_cases hok : ok db name (mkRow headers r)
    · simp [hok] at hins
      have ht1 : lookupTable (dbAppendRow db name (mkRow headers r)) name
          = some (Table.mk (t.rows ++ [mkRow headers r])) :=
        lookupTable_dbAppendRow_self db name (mkRow headers r) t ht
      simp [loadRows, hins] at hr ⊢
      obtain ⟨h1, h2, h3⟩ := ih _ (count + 1) _ n ht1 hr
      refine ⟨by omega, ?_, h3⟩
      simpa [List.append_assoc] using h2
    · simp [hok] at hins
      simp [loadRows, hins] at hr

theorem loadRows_error_spec (ok : ConstraintOk) (name : String) (headers : List String)
    (prep : List String) (recs : List (List String)) :
    ∀ (db : DB) (count : Nat) (t : Table) (e : Err),
      lookupTable db name = some t →
      (loadRows ok name headers prep db recs count).result = .error e →
      e = Err.database "constraint violation" ∧
      ∃ pre r suf, recs = pre ++ r :: suf ∧
        (loadRows ok name headers prep db recs count).log = [headers.zip r] ∧
        lookupTable (loadRows ok name headers prep db recs count).db name
          = some (Table.mk (t.rows ++ pre.map (mkRow headers))) := by
  induction recs with
  | nil => intro db count t e ht hr; simp [loadRows] at hr
  | cons r rs ih =>
    intro db count t e ht hr
    have hins : dbInsert ok db name (mkRow headers r)
        = if ok db name (mkRow headers r) then .ok (dbAppendRow db name (mkRow headers r))
          else .error (.database "constraint violation") := by
      simp [dbInsert, ht]
    by_cases hok : ok db name (mkRow headers r)
    · simp [hok] at hins
      have ht1 : lookupTable (dbAppendRow db name (mkRow headers r)) name
          = some (Table.mk (t.rows ++ [mkRow headers r])) :=
        lookupTable_dbAppendRow_self db name (mkRow headers r) t ht
      have hstep : loadRows ok name headers prep db (r :: rs) count
          = loadRows ok name headers prep (dbAppendRow db name (mkRow headers r)) rs (count + 1) := by
        simp [loadRows, hins]
      rw [hstep] at hr ⊢
      obtain ⟨he, pre, rr, suf, hsplit, hlog, hdb⟩ := ih _ (count + 1) _ e ht1 hr
      refine ⟨he, r :: pre, rr, suf, by rw [hsplit]; rfl, hlog, ?_⟩
      rw [hdb]
      simp [List.append_assoc]
    · simp [hok] at hins
      have hstep : loadRows ok name headers prep db (r :: rs) count
          = LoadOutcome.mk (.error (.database "constraint violation")) db prep
              [headers.zip r] := by
        simp [loadRows, hins]
      rw [hstep] at hr ⊢
      have he : e = Err.database "constraint violation" := by
        cases hr
        rfl
      refine ⟨he, [], r, rs, rfl, rfl, ?_⟩
      simpa using ht

theorem loadRows_presence (ok : ConstraintOk) (name : String) (headers : List String)
    (prep : List String) (recs : List (List String)) :
    ∀ (db : DB) (count : Nat) (tn : String),
      (lookupTable (loadRows ok name headers prep db recs count).db tn).isSome
        = (lookupTable db tn).isSome := by
  induction recs with
  | nil => intro db count tn; simp [loadRows]
  | cons r rs ih =>
    intro db count tn
    cases h : dbInsert ok db name (mkRow headers r) with
    | ok db1 =>
      have hdb1 : db1 = dbAppendRow db name (mkRow headers r) := by
        simp [dbInsert] at h
        cases hl : lookupTable db name with
        | none => simp [hl] at h
        | some tt =>
          simp [hl] at h
          by_cases hok : ok db name (mkRow headers r)
          · simp [hok] at h; exact h.symm
          · simp [hok] at h
      simp [loadRows, h, ih, hdb1, lookupTable_dbAppendRow_isSome]
    | error e => simp [loadRows, h]

theorem strPushData (s : String) (c : Char) : (s.push c).data = s.data ++ [c] :=
  String.data_push s c

theorem foldl_buildStep_closed (l : List String) :
    ∀ (f v : String) (c : Nat),
      List.foldl buildStep (StmtBuild.mk f v false c) l =
        StmtBuild.mk (f ++ restComma l) (v ++ restComma (l.map fun _ => "?")) false
          (c + l.length) := by
  induction l with
  | nil =>
    intro f v c
    simp [restComma, String.ext_iff, String.data_append, strDataEmpty]
  | cons x xs ih =>
    intro f v c
    have hstep : buildStep (StmtBuild.mk f v false c) x
        = StmtBuild.mk ((f ++ ", ") ++ x) ((v ++ ", ").push '?') false (c + 1) := by
      simp [buildStep]
    rw [List.foldl_cons, hstep, ih]
    simp [restComma, String.ext_iff, String.data_append, strPushData, strDataQ]
    omega

theorem buildStmt_nil : buildStmt [] = StmtBuild.mk "" "" true 0 := rfl

theorem buildStmt_cons (h : String) (t : List String) :
    buildStmt (h :: t)
      = StmtBuild.mk (commaSep (h :: t)) (commaSep ((h :: t).map fun _ => "?")) false
          (h :: t).length := by
  have hstep : buildStep (StmtBuild.mk "" "" true 0) h
      = StmtBuild.mk ("" ++ h) ("".push '?') false 1 := by
    simp [buildStep]
  rw [buildStmt, List.foldl_cons, hstep, foldl_buildStep_closed]
  simp [commaSep, String.ext_iff, String.data_append, strPushData, strDataQ, strDataEmpty]
  omega

theorem buildStmt_field_count (l : List String) : (buildStmt l).field_count = l.length := by
  cases l with
  | nil => rfl
  | cons h t => rw [buildStmt_cons]

theorem insertStmtText_closed (name : String) (h : String) (t : List String) :
    insertStmtText name (h :: t)
      = "INSERT INTO " ++ name ++ " (" ++ commaSep (h :: t) ++ ") VALUES("
          ++ commaSep ((h :: t).map fun _ => "?") ++ ")" := by
  rw [insertStmtText, buildStmt_cons]

theorem renderChars_append_lit (subs : List (String × String)) (cs : List Char) :
    ∀ rest : List Char, (∀ c ∈ cs, c ≠ lbrace) →
      renderChars subs (cs ++ rest) = (renderChars subs rest).map fun out => cs ++ out := by
  induction cs with
  | nil =>
    intro rest _
    cases h : renderChars subs rest <;> simp [Except.map, h]
  | cons c cs' ih =>
    intro rest hno
    have hc : c ≠ lbrace := hno c (by simp)
    have hcs' : ∀ x ∈ cs', x ≠ lbrace := fun x hx => hno x (by simp [hx])
    rw [List.cons_append, renderChars, if_neg hc, ih rest hcs']
    cases h : renderChars subs rest <;> simp [Except.map, h]

theorem renderHole_scan (subs : List (String × String)) (nameCs : List Char) :
    ∀ (acc rest : List Char), (∀ c ∈ nameCs, c ≠ rbrace) →
      renderHole subs acc (nameCs ++ rbrace :: rest)
        = match lookupSub subs (String.mk (acc.reverse ++ nameCs)) with
          | none => .error (.missingPlaceholder (String.mk (acc.reverse ++ nameCs)))
          | some v => (renderChars subs rest).map fun out => v.data ++ out := by
  induction nameCs with
  | nil =>
    intro acc rest _
    rw [List.nil_append, renderHole, if_pos rfl]
    simp
  | cons c cs' ih =>
    intro acc rest hno
    have hc : c ≠ rbrace := hno c (by simp)
    have hcs' : ∀ x ∈ cs', x ≠ rbrace := fun x hx => hno x (by simp [hx])
    rw [List.cons_append, renderHole, if_neg hc, ih (c :: acc) rest hcs']
    simp [List.append_assoc]


theorem segsWf_rest {sg : Seg} {rest : List Seg} (h : segsWf (sg :: rest) = true) :
    segsWf rest = true := by
  cases sg with
  | lit s => exact ((Bool.and_eq_true _ _).mp h).2
  | hole n => exact ((Bool.and_eq_true _ _).mp h).2

theorem segsWf_lit_chars {s : String} {rest : List Seg}
    (h : segsWf (.lit s :: rest) = true) : ∀ c ∈ s.data, c ≠ lbrace := by
  have h1 := ((Bool.and_eq_true _ _).mp h).1
  intro c hc
  simpa using List.all_eq_true.mp h1 c hc

theorem segsWf_hole_chars {n : String} {rest : List Seg}
    (h : segsWf (.hole n :: rest) = true) : ∀ c ∈ n.data, c ≠ rbrace := by
  have h1 := ((Bool.and_eq_true _ _).mp h).1
  intro c hc
  simpa using List.all_eq_true.mp h1 c hc

theorem holesCovered_rest {subs : List (String × String)} {sg : Seg} {rest : List Seg}
    (h : holesCovered subs (sg :: rest) = true) : holesCovered subs rest = true := by
  cases sg with
  | lit s => exact h
  | hole n => exact ((Bool.and_eq_true _ _).mp h).2

theorem holesCovered_hole_head {subs : List (String × String)} {n : String}
    {rest : List Seg} (h : holesCovered subs (.hole n :: rest) = true) :
    (lookupSub subs n).isSome = true :=
  ((Bool.and_eq_true _ _).mp h).1

theorem holesCovered_cons_lit {subs : List (String × String)} {s : String}
    {rest : List Seg} (h : holesCovered subs rest = true) :
    holesCovered subs (.lit s :: rest) = true := h

theorem holesCovered_cons_hole {subs : List (String × String)} {n : String}
    {rest : List Seg} (h1 : (lookupSub subs n).isSome = true)
    (h2 : holesCovered subs rest = true) :
    holesCovered subs (.hole n :: rest) = true :=
  (Bool.and_eq_true _ _).mpr ⟨h1, h2⟩

theorem renderChars_segs_ok (subs : List (String × String)) (segs : List Seg)
    (hwf : segsWf segs = true) (hcov : holesCovered subs segs = true) :
    renderChars subs (segsToChars segs) = .ok (substChars subs segs) := by
  induction segs with
  | nil => simp [segsToChars, substChars, renderChars]
  | cons sg rest ih =>
    have hwf' := segsWf_rest hwf
    have hcov' := holesCovered_rest hcov
    cases sg with
    | lit s =>
      rw [segsToChars, renderChars_append_lit subs s.data _ (segsWf_lit_chars hwf),
        ih hwf' hcov']
      simp [substChars, Except.map]
    | hole n =>
      obtain ⟨v, hv⟩ := Option.isSome_iff_exists.mp (holesCovered_hole_head hcov)
      rw [segsToChars, renderChars, if_pos rfl,
        renderHole_scan subs n.data [] (segsToChars rest) (segsWf_hole_chars hwf)]
      simp only [List.reverse_nil, List.nil_append, strMkData, hv]
      rw [ih hwf' hcov']
      simp [substChars, hv, Except.map]

theorem renderChars_ok_covered (subs : List (String × String)) (segs : List Seg) :
    ∀ out : List Char, segsWf segs = true →
      renderChars subs (segsToChars segs) = .ok out → holesCovered subs segs = true := by
  induction segs with
  | nil => intro out _ _; rfl
  | cons sg rest ih =>
    intro out hwf hok
    have hwf' := segsWf_rest hwf
    cases sg with
    | lit s =>
      rw [segsToChars, renderChars_append_lit subs s.data _ (segsWf_lit_chars hwf)] at hok
      cases h : renderChars subs (segsToChars rest) with
      | ok out' => exact holesCovered_cons_lit (ih out' hwf' h)
      | error e => rw [h] at hok; simp [Except.map] at hok
    | hole n =>
      rw [segsToChars, renderChars, if_pos rfl,
        renderHole_scan subs n.data [] (segsToChars rest) (segsWf_hole_chars hwf)] at hok
      simp only [List.reverse_nil, List.nil_append, strMkData] at hok
      cases hv : lookupSub subs n with
      | none => rw [hv] at hok; simp at hok
      | some v =>
        rw [hv] at hok
        cases h : renderChars subs (segsToChars rest) with
        | ok out' =>
          exact holesCovered_cons_hole (by simp [hv]) (ih out' hwf' h)
        | error e => rw [h] at hok; simp [Except.map] at hok

theorem load_data_empty_headers (ok : ConstraintOk) (csvFs : String → Option CSVFile)
    (db : DB) (name path : String) (file : CSVFile)
    (hfs : csvFs path = some file) (hh : file.headers = []) :
    load_data ok csvFs db name path = LoadOutcome.mk (.ok 0) db [] [] := by
  simp [load_data, hfs, hh, buildStmt_nil]

theorem load_data_main (ok : ConstraintOk) (csvFs : String → Option CSVFile)
    (db : DB) (name path : String) (file : CSVFile) (t0 : Table)
    (hfs : csvFs path = some file) (hne : file.headers ≠ [])
    (ht : lookupTable db name = some t0) :
    load_data ok csvFs db name path
      = loadRows ok name (file.headers.map strTrim)
          [insertStmtText name (file.headers.map strTrim)] db
          (file.records.map (List.map strTrim)) 0 := by
  have hfc : (buildStmt (file.headers.map strTrim)).field_count
      = (file.headers.map strTrim).length := buildStmt_field_count _
  have hlen : ¬(buildStmt (file.headers.map strTrim)).field_count = 0 := by
    rw [hfc, List.length_map]
    intro hz
    exact hne (List.length_eq_zero.mp hz)
  simp [load_data, hfs, hlen, ht]

theorem load_data_presence (ok : ConstraintOk) (csvFs : String → Option CSVFile)
    (db : DB) (name path tn : String) :
    (lookupTable (load_data ok csvFs db name path).db tn).isSome
      = (lookupTable db tn).isSome := by
  cases hfs : csvFs path with
  | none => simp [load_data, hfs]
  | some file =>
    by_cases hfc : (buildStmt (file.headers.map strTrim)).field_count = 0
    · simp [load_data, hfs, hfc]
    · cases hlt : lookupTable db name with
      | none => simp [load_data, hfs, hfc, hlt]
      | some t => simp [load_data, hfs, hfc, hlt, loadRows_presence]

theorem create_table_presence (fsT : String → Option String) (db db' : DB)
    (name pk_type path tn : String)
    (hc : create_table fsT db name pk_type path = .ok db')
    (h : (lookupTable db tn).isSome = true) :
    (lookupTable db' tn).isSome = true := by
  cases hfs : fsT path with
  | none => simp [create_table, hfs] at hc
  | some ddl =>
    cases hr : render ddl [("table", name), ("pk_type", pk_type)] with
    | error e => simp [create_table, hfs, hr] at hc
    | ok rendered =>
      cases hp : parseCreate rendered with
      | none => simp [create_table, execBatch, hfs, hr, hp] at hc
      | some pr =>
        obtain ⟨ine, tname⟩ := pr
        cases hlt : lookupTable db tname with
        | some tt =>
          cases ine with
          | true =>
            simp [create_table, execBatch, hfs, hr, hp, hlt] at hc
            rw [← hc]
            exact h
          | false => simp [create_table, execBatch, hfs, hr, hp, hlt] at hc
        | none =>
          simp [create_table, execBatch, hfs, hr, hp, hlt] at hc
          rw [← hc]
          exact lookupTable_append_isSome db [(tname, Table.mk [])] tn h

theorem processEntry_presence (ok : ConstraintOk) (fsT : String → Option String)
    (csvFs : String → Option CSVFile) (ts : String) (db : DB) (name tn : String)
    (t : LookupTable) (h : (lookupTable db tn).isSome = true) :
    (lookupTable (processEntry ok fsT csvFs ts db name t).db tn).isSome = true := by
  cases hc : create_table fsT db name t.pk_type (t.schema.getD ts) with
  | error e => simpa [processEntry, hc] using h
  | ok db1 =>
    have h1 : (lookupTable db1 tn).isSome = true :=
      create_table_presence fsT db db1 name t.pk_type (t.schema.getD ts) tn hc h
    have h2 : (lookupTable (load_data ok csvFs db1 name t.data).db tn).isSome = true := by
      rw [load_data_presence]
      exact h1
    cases hr : (load_data ok csvFs db1 name t.data).result with
    | error e => simpa [processEntry, hc, hr] using h2
    | ok k => simpa [processEntry, hc, hr] using h2

theorem init_presence (ok : ConstraintOk) (fsT : String → Option String)
    (csvFs : String → Option CSVFile) (ts : String) (entries : List (String × LookupTable)) :
    ∀ (db : DB) (tn : String), (lookupTable db tn).isSome = true →
      (lookupTable (init_lookup_tables ok fsT csvFs ts db entries).db tn).isSome = true := by
  induction entries with
  | nil => intro db tn h; simpa [init_lookup_tables] using h
  | cons e rest ih =>
    intro db tn h
    obtain ⟨name, t⟩ := e
    have hp := processEntry_presence ok fsT csvFs ts db name tn t h
    cases hr : (processEntry ok fsT csvFs ts db name t).result with
    | error err => simpa [init_lookup_tables, hr] using hp
    | ok u =>
      have := ih (processEntry ok fsT csvFs ts db name t).db tn hp
      simpa [init_lookup_tables, hr] using this

theorem init_singleton (ok : ConstraintOk) (fsT : String → Option String)
    (csvFs : String → Option CSVFile) (ts : String) (db : DB) (name : String)
    (t : LookupTable) :
    init_lookup_tables ok fsT csvFs ts db [(name, t)]
      = processEntry ok fsT csvFs ts db name t := by
  cases hp : processEntry ok fsT csvFs ts db name t with
  | mk r d =>
    cases r with
    | error e => simp [init_lookup_tables, hp]
    | ok u => cases u; simp [init_lookup_tables, hp]

theorem init_append (ok : ConstraintOk) (fsT : String → Option String)
    (csvFs : String → Option CSVFile) (ts : String) (pre : List (String × LookupTable)) :
    ∀ (suf : List (String × LookupTable)) (db : DB),
      init_lookup_tables ok fsT csvFs ts db (pre ++ suf)
        = match (init_lookup_tables ok fsT csvFs ts db pre).result with
          | .error _ => init_lookup_tables ok fsT csvFs ts db pre
          | .ok _ => init_lookup_tables ok fsT csvFs ts
              (init_lookup_tables ok fsT csvFs ts db pre).db suf := by
  induction pre with
  | nil => intro suf db; simp [init_lookup_tables]
  | cons e rest ih =>
    intro suf db
    obtain ⟨name, t⟩ := e
    cases hr : (processEntry ok fsT csvFs ts db name t).result with
    | error err => simp [init_lookup_tables, hr]
    | ok u => simp [init_lookup_tables, hr, ih]

/-- C1: for every CSV file with a valid header and N data rows, each row
having the header's column count, `load_data` returns N on success, and
the target table afterwards holds exactly its prior rows plus the N
inserted rows, whose columns are the header names in header order. -/
theorem load_data_success_count (ok : ConstraintOk) (csvFs : String → Option CSVFile)
    (db : DB) (name path : String) (file : CSVFile) (t0 : Table) (n : Nat)
    (hfs : csvFs path = some file)
    (hwf : ∀ r ∈ file.records, r.length = file.headers.length)
    (hnr : file.headers = [] → file.records = [])
    (ht : lookupTable db name = some t0)
    (hok : (load_data ok csvFs db name path).result = Except.ok n) :
    n = file.records.length ∧
    lookupTable (load_data ok csvFs db name path).db name
      = some (Table.mk (t0.rows ++ file.records.map fun r =>
          mkRow (file.headers.map strTrim) (r.map strTrim))) ∧
    ∀ row ∈ file.records.map fun r => mkRow (file.headers.map strTrim) (r.map strTrim),
      row.map Prod.fst = file.headers.map strTrim := by
  by_cases hh : file.headers = []
  · have hrec := hnr hh
    rw [load_data_empty_headers ok csvFs db name path file hfs hh] at hok ⊢
    have hn : n = 0 := by
      cases hok
      rfl
    subst hn
    refine ⟨by simp [hrec], ?_, by simp [hrec]⟩
    simpa [hrec] using ht
  · rw [load_data_main ok csvFs db name path file t0 hfs hh ht] at hok ⊢
    obtain ⟨h1, h2, _⟩ := loadRows_ok_spec ok name (file.headers.map strTrim)
      [insertStmtText name (file.headers.map strTrim)]
      (file.records.map (List.map strTrim)) db 0 t0 n ht hok
    refine ⟨by simpa using h1, ?_, ?_⟩
    · rw [h2, List.map_map]
      rfl
    · intro row hrow
      simp only [List.mem_map] at hrow
      obtain ⟨r, hr, hrw⟩ := hrow
      subst hrw
      apply List.map_fst_zip
      simp [hwf r hr]

/-- C2: every cell that is empty after trimming is bound as SQL NULL, and
every other cell, the lone dash included, is bound verbatim as text. -/
theorem load_data_empty_to_null (ok : ConstraintOk) (csvFs : String → Option CSVFile)
    (db : DB) (name path : String) (file : CSVFile) (t0 : Table) (n : Nat)
    (hfs : csvFs path = some file)
    (hwf : ∀ r ∈ file.records, r.length = file.headers.length)
    (hnr : file.headers = [] → file.records = [])
    (ht : lookupTable db name = some t0)
    (hok : (load_data ok csvFs db name path).result = Except.ok n) :
    lookupTable (load_data ok csvFs db name path).db name
      = some (Table.mk (t0.rows ++ file.records.map fun r =>
          mkRow (file.headers.map strTrim) (r.map strTrim))) ∧
    (file.records.map fun r => mkRow (file.headers.map strTrim) (r.map strTrim)).map
        (List.map Prod.snd)
      = file.records.map (fun r => r.map fun s =>
          if strTrim s = "" then Value.null else Value.text (strTrim s)) ∧
    cellParam "-" = Value.text "-" := by
  have hstore : lookupTable (load_data ok csvFs db name path).db name
      = some (Table.mk (t0.rows ++ file.records.map fun r =>
          mkRow (file.headers.map strTrim) (r.map strTrim))) := by
    by_cases hh : file.headers = []
    · have hrec := hnr hh
      rw [load_data_empty_headers ok csvFs db name path file hfs hh]
      simpa [hrec] using ht
    · rw [load_data_main ok csvFs db name path file t0 hfs hh ht] at hok ⊢
      obtain ⟨_, h2, _⟩ := loadRows_ok_spec ok name (file.headers.map strTrim)
        [insertStmtText name (file.headers.map strTrim)]
        (file.records.map (List.map strTrim)) db 0 t0 n ht hok
      rw [h2, List.map_map]
      rfl
  refine ⟨hstore, ?_, by decide⟩
  rw [List.map_map]
  apply List.map_congr_left
  intro r hr
  show (mkRow (file.headers.map strTrim) (r.map strTrim)).map Prod.snd = _
  rw [mkRow, List.map_snd_zip]
  · rw [List.map_map]
    rfl
  · simp [hwf r hr]

/-- C7: a CSV file whose header row has zero columns makes `load_data`
return 0 as a success, with the connection state untouched, no statement
prepared and nothing logged. -/
theorem load_data_empty_header_noop (ok : ConstraintOk) (csvFs : String → Option CSVFile)
    (db : DB) (name path : String) (file : CSVFile)
    (hfs : csvFs path = some file) (hh : file.headers = []) :
    load_data ok csvFs db name path = LoadOutcome.mk (.ok 0) db [] [] :=
  load_data_empty_headers ok csvFs db name path file hfs hh

theorem load_data_prepared_nonempty (ok : ConstraintOk) (csvFs : String → Option CSVFile)
    (db : DB) (name path : String) (file : CSVFile)
    (hfs : csvFs path = some file) (hne : file.headers ≠ []) :
    (load_data ok csvFs db name path).prepared
      = [insertStmtText name (file.headers.map strTrim)] := by
  have hlen : ¬(buildStmt (file.headers.map strTrim)).field_count = 0 := by
    rw [buildStmt_field_count, List.length_map]
    intro hz
    exact hne (List.length_eq_zero.mp hz)
  cases hlt : lookupTable db name with
  | none => simp [load_data, hfs, hlen, hlt]
  | some t => simp [load_data, hfs, hlen, hlt, loadRows_prepared]

/-- C3: for a header with at least one column, `load_data` prepares
exactly one parameterized INSERT whose column list is the header's names
in header order with one placeholder per column, and whose text does not
depend on the data records at all. -/
theorem load_data_single_insert_stmt (ok : ConstraintOk) (csvFs : String → Option CSVFile)
    (db : DB) (name path : String) (file : CSVFile)
    (hfs : csvFs path = some file) (hne : file.headers ≠ []) :
    (load_data ok csvFs db name path).prepared
      = [insertStmtText name (file.headers.map strTrim)] ∧
    insertStmtText name (file.headers.map strTrim)
      = "INSERT INTO " ++ name ++ " (" ++ commaSep (file.headers.map strTrim)
          ++ ") VALUES(" ++ commaSep ((file.headers.map strTrim).map fun _ => "?") ++ ")" ∧
    ∀ (csvFs2 : String → Option CSVFile) (file2 : CSVFile),
      csvFs2 path = some file2 → file2.headers = file.headers →
      (load_data ok csvFs2 db name path).prepared
        = (load_data ok csvFs db name path).prepared := by
  refine ⟨load_data_prepared_nonempty ok csvFs db name path file hfs hne, ?_, ?_⟩
  · obtain ⟨x, xs, hm⟩ : ∃ x xs, file.headers.map strTrim = x :: xs := by
      cases hmm : file.headers.map strTrim with
      | nil => exact absurd (List.map_eq_nil_iff.mp hmm) hne
      | cons a b => exact ⟨a, b, rfl⟩
    rw [hm]
    exact insertStmtText_closed name x xs
  · intro csvFs2 file2 h2 heq
    rw [load_data_prepared_nonempty ok csvFs2 db name path file2 h2 (by rw [heq]; exact hne),
      load_data_prepared_nonempty ok csvFs db name path file hfs hne, heq]

/-- C10: the INSERT text embeds the table name and the header column names
verbatim by plain concatenation — no quoting, escaping or validation — so
a column name containing SQL syntax changes the statement text itself. -/
theorem insert_stmt_verbatim_identifiers :
    (∀ (name : String) (cols : List String),
      insertStmtText name cols
        = "INSERT INTO " ++ name ++ " (" ++ commaSep cols ++ ") VALUES("
            ++ commaSep (cols.map fun _ => "?") ++ ")") ∧
    insertStmtText "t" ["a; DROP TABLE u"] ≠ insertStmtText "t" ["a"] := by
  refine ⟨?_, by decide⟩
  intro name cols
  cases cols with
  | nil => rfl
  | cons h t => exact insertStmtText_closed name h t

/-- C5 counterexample: at a concrete input whose first insert fails,
`load_data` does not return the count of rows inserted before the failure
(0 here) — it returns the error instead. -/
theorem load_data_error_drops_count_cex :
    (load_data okFalse fsCsvA db0 "t" "data.csv").result
        = Except.error (Err.database "constraint violation") ∧
    (load_data okFalse fsCsvA db0 "t" "data.csv").result ≠ Except.ok 0 := by
  constructor
  · decide
  · decide

/-- C5 (amended): `load_data` returns the inserted-row count only when
every row inserts successfully; on a row failure it returns that error,
and exactly the rows inserted strictly before the failure remain in the
table, their count unreturned. -/
theorem load_data_count_on_success_only (ok : ConstraintOk) (csvFs : String → Option CSVFile)
    (db : DB) (name path : String) (file : CSVFile) (t0 : Table)
    (hfs : csvFs path = some file)
    (hnr : file.headers = [] → file.records = [])
    (ht : lookupTable db name = some t0) :
    (∀ n, (load_data ok csvFs db name path).result = Except.ok n →
      n = file.records.length) ∧
    (∀ e, (load_data ok csvFs db name path).result = Except.error e →
      ∃ pre r suf, file.records.map (List.map strTrim) = pre ++ r :: suf ∧
        lookupTable (load_data ok csvFs db name path).db name
          = some (Table.mk (t0.rows ++ pre.map (mkRow (file.headers.map strTrim))))) := by
  by_cases hh : file.headers = []
  · have hrec := hnr hh
    rw [load_data_empty_headers ok csvFs db name path file hfs hh]
    constructor
    · intro n hok
      cases hok
      simp [hrec]
    · intro e herr
      cases herr
  · rw [load_data_main ok csvFs db name path file t0 hfs hh ht]
    constructor
    · intro n hok
      obtain ⟨h1, _, _⟩ := loadRows_ok_spec ok name (file.headers.map strTrim)
        [insertStmtText name (file.headers.map strTrim)]
        (file.records.map (List.map strTrim)) db 0 t0 n ht hok
      simpa using h1
    · intro e herr
      obtain ⟨_, pre, r, suf, hsplit, _, hdb⟩ := loadRows_error_spec ok name
        (file.headers.map strTrim) [insertStmtText name (file.headers.map strTrim)]
        (file.records.map (List.map strTrim)) db 0 t0 e ht herr
      exact ⟨pre, r, suf, hsplit, hdb⟩

/-- C6: when a row's insert fails, the failing row's column/value pairs
are logged for diagnostics, a database error is propagated, and no record
after the failing one is inserted. -/
theorem load_data_failure_diagnostics (ok : ConstraintOk) (csvFs : String → Option CSVFile)
    (db : DB) (name path : String) (file : CSVFile) (t0 : Table) (e : Err)
    (hfs : csvFs path = some file)
    (ht : lookupTable db name = some t0)
    (herr : (load_data ok csvFs db name path).result = Except.error e) :
    (∃ msg, e = Err.database msg) ∧
    ∃ pre r suf, file.records.map (List.map strTrim) = pre ++ r :: suf ∧
      (load_data ok csvFs db name path).log = [(file.headers.map strTrim).zip r] ∧
      lookupTable (load_data ok csvFs db name path).db name
        = some (Table.mk (t0.rows ++ pre.map (mkRow (file.headers.map strTrim)))) := by
  by_cases hh : file.headers = []
  · rw [load_data_empty_headers ok csvFs db name path file hfs hh] at herr
    cases herr
  · rw [load_data_main ok csvFs db name path file t0 hfs hh ht] at herr ⊢
    obtain ⟨he, pre, r, suf, hsplit, hlog, hdb⟩ := loadRows_error_spec ok name
      (file.headers.map strTrim) [insertStmtText name (file.headers.map strTrim)]
      (file.records.map (List.map strTrim)) db 0 t0 e ht herr
    exact ⟨⟨"constraint violation", he⟩, pre, r, suf, hsplit, hlog, hdb⟩

/-- C4: `init_lookup_tables` processes entries in order — each entry's DDL
template resolves to its own override when present, else the shared
default, then `create_table` runs before `load_data` — it stops at the
first failing step returning that step's error, and every table present
before remains present afterwards, error or not (no rollback). -/
theorem init_lookup_tables_sequencing (ok : ConstraintOk) (fsT : String → Option String)
    (csvFs : String → Option CSVFile) (ts : String) :
    (∀ (db : DB) (pre suf : List (String × LookupTable)),
      init_lookup_tables ok fsT csvFs ts db (pre ++ suf)
        = match (init_lookup_tables ok fsT csvFs ts db pre).result with
          | .error _ => init_lookup_tables ok fsT csvFs ts db pre
          | .ok _ => init_lookup_tables ok fsT csvFs ts
              (init_lookup_tables ok fsT csvFs ts db pre).db suf) ∧
    (∀ (db : DB) (name : String) (t : LookupTable),
      init_lookup_tables ok fsT csvFs ts db [(name, t)]
        = match create_table fsT db name t.pk_type (t.schema.getD ts) with
          | .error e => InitOutcome.mk (.error e) db
          | .ok db1 =>
            match (load_data ok csvFs db1 name t.data).result with
            | .error e => InitOutcome.mk (.error e) (load_data ok csvFs db1 name t.data).db
            | .ok _ => InitOutcome.mk (.ok ()) (load_data ok csvFs db1 name t.data).db) ∧
    (∀ (db : DB) (entries : List (String × LookupTable)) (tn : String),
      (lookupTable db tn).isSome = true →
      (lookupTable (init_lookup_tables ok fsT csvFs ts db entries).db tn).isSome = true) := by
  refine ⟨fun db pre suf => init_append ok fsT csvFs ts pre suf db, ?_,
    fun db entries tn h => init_presence ok fsT csvFs ts entries db tn h⟩
  intro db name t
  rw [init_singleton]
  rw [processEntry]

theorem lookupTable_self_append (db : DB) (k : String) (t : Table) :
    lookupTable db k = none →
    lookupTable (db ++ [(k, t)]) k = some t :=
  lookupTable_append_none db k t

/-- C8 (amended): when the template file is readable, renders with the
table/pk_type substitutions, and the rendered DDL is one plain CREATE
TABLE — no IF NOT EXISTS — naming a table not yet present, the first
`create_table` call succeeds and the second identical call fails with a
database error. -/
theorem create_table_second_call_fails (fsT : String → Option String) (db : DB)
    (name pk_type path tmpl sql tname : String)
    (hfs : fsT path = some tmpl)
    (hr : render tmpl [("table", name), ("pk_type", pk_type)] = .ok sql)
    (hp : parseCreate sql = some (false, tname))
    (hnone : lookupTable db tname = none) :
    create_table fsT db name pk_type path = .ok (db ++ [(tname, Table.mk [])]) ∧
    create_table fsT (db ++ [(tname, Table.mk [])]) name pk_type path
      = .error (.database ("table exists: " ++ tname)) := by
  constructor
  · simp [create_table, hfs, hr, execBatch, hp, hnone]
  · simp [create_table, hfs, hr, execBatch, hp,
      lookupTable_append_none db tname (Table.mk []) hnone]

/-- C8 counterexample: with a re-creation-tolerant template (CREATE TABLE
IF NOT EXISTS), the second identical `create_table` call also succeeds, so
the claim's unconditional second-call failure is false. -/
theorem create_table_if_not_exists_cex :
    create_table fsIne [] "u" "CHAR(1)" "pk.sql" = .ok [("u", Table.mk [])] ∧
    create_table fsIne [("u", Table.mk [])] "u" "CHAR(1)" "pk.sql"
      = .ok [("u", Table.mk [])] := by
  constructor
  · decide
  · decide

/-- C9: for a template that decomposes into literal runs and placeholder
markers, rendering with a map covering every placeholder reproduces the
literals verbatim with each placeholder replaced by its mapped value, and
rendering succeeds only when every referenced placeholder is covered. -/
theorem render_round_trip (segs : List Seg) (subs : List (String × String)) (T : String)
    (hwf : segsWf segs = true) (hT : T = String.mk (segsToChars segs)) :
    (holesCovered subs segs = true →
      render T subs = .ok (String.mk (substChars subs segs))) ∧
    (∀ out, render T subs = .ok out → holesCovered subs segs = true) := by
  subst hT
  constructor
  · intro hcov
    rw [render]
    show (renderChars subs (String.mk (segsToChars segs)).data).map String.mk = _
    rw [show (String.mk (segsToChars segs)).data = segsToChars segs from rfl,
      renderChars_segs_ok subs segs hwf hcov]
    rfl
  · intro out hok
    rw [render] at hok
    rw [show (String.mk (segsToChars segs)).data = segsToChars segs from rfl] at hok
    cases h : renderChars subs (segsToChars segs) with
    | ok cs => exact renderChars_ok_covered subs segs cs hwf h
    | error e => rw [h] at hok; cases hok

/-- Witness for C1 at a concrete successful load of two records. -/
theorem load_data_success_count_witness :
    (fsCsvA "data.csv" = some csvA ∧
     (∀ r ∈ csvA.records, r.length = csvA.headers.length) ∧
     (csvA.headers = [] → csvA.records = []) ∧
     lookupTable db0 "t" = some (Table.mk []) ∧
     (load_data okTrue fsCsvA db0 "t" "data.csv").result = Except.ok 2) ∧
    (2 = csvA.records.length ∧
     lookupTable (load_data okTrue fsCsvA db0 "t" "data.csv").db "t"
       = some (Table.mk ((Table.mk []).rows ++ csvA.records.map fun r =>
           mkRow (csvA.headers.map strTrim) (r.map strTrim))) ∧
     ∀ row ∈ csvA.records.map fun r => mkRow (csvA.headers.map strTrim) (r.map strTrim),
       row.map Prod.fst = csvA.headers.map strTrim) :=
  ⟨⟨by decide, by decide, by decide, by decide, by decide⟩,
   load_data_success_count okTrue fsCsvA db0 "t" "data.csv" csvA (Table.mk []) 2
     (by decide) (by decide) (by decide) (by decide) (by decide)⟩

/-- Witness for C2 at a concrete load holding an empty cell and a lone
dash cell. -/
theorem load_data_empty_to_null_witness :
    (fsCsvB "data.csv" = some csvB ∧
     (∀ r ∈ csvB.records, r.length = csvB.headers.length) ∧
     (csvB.headers = [] → csvB.records = []) ∧
     lookupTable db0 "t" = some (Table.mk []) ∧
     (load_data okTrue fsCsvB db0 "t" "data.csv").result = Except.ok 1) ∧
    (lookupTable (load_data okTrue fsCsvB db0 "t" "data.csv").db "t"
       = some (Table.mk ((Table.mk []).rows ++ csvB.records.map fun r =>
           mkRow (csvB.headers.map strTrim) (r.map strTrim))) ∧
     (csvB.records.map fun r => mkRow (csvB.headers.map strTrim) (r.map strTrim)).map
         (List.map Prod.snd)
       = csvB.records.map (fun r => r.map fun s =>
           if strTrim s = "" then Value.null else Value.text (strTrim s)) ∧
     cellParam "-" = Value.text "-") :=
  ⟨⟨by decide, by decide, by decide, by decide, by decide⟩,
   load_data_empty_to_null okTrue fsCsvB db0 "t" "data.csv" csvB (Table.mk []) 1
     (by decide) (by decide) (by decide) (by decide) (by decide)⟩

/-- Witness for C3 at a concrete two-column header. -/
theorem load_data_single_insert_stmt_witness :
    (fsCsvA "data.csv" = some csvA ∧ csvA.headers ≠ []) ∧
    ((load_data okTrue fsCsvA db0 "t" "data.csv").prepared
       = [insertStmtText "t" (csvA.headers.map strTrim)] ∧
     insertStmtText "t" (csvA.headers.map strTrim)
       = "INSERT INTO " ++ "t" ++ " (" ++ commaSep (csvA.headers.map strTrim)
           ++ ") VALUES(" ++ commaSep ((csvA.headers.map strTrim).map fun _ => "?") ++ ")" ∧
     ∀ (csvFs2 : String → Option CSVFile) (file2 : CSVFile),
       csvFs2 "data.csv" = some file2 → file2.headers = csvA.headers →
       (load_data okTrue csvFs2 db0 "t" "data.csv").prepared
         = (load_data okTrue fsCsvA db0 "t" "data.csv").prepared) :=
  ⟨⟨by decide, by decide⟩,
   load_data_single_insert_stmt okTrue fsCsvA db0 "t" "data.csv" csvA
     (by decide) (by decide)⟩

/-- Witness for C4: a table present before initialization is still present
after a concrete run. -/
theorem init_lookup_tables_sequencing_witness :
    (lookupTable db0 "t").isSome = true ∧
    (lookupTable (init_lookup_tables okTrue fsPlain fsCsvA "pk.sql" db0 entries0).db
        "t").isSome = true :=
  ⟨by decide,
   (init_lookup_tables_sequencing okTrue fsPlain fsCsvA "pk.sql").2.2 db0 entries0 "t"
     (by decide)⟩

/-- Witness for the amended C5 at a concrete failing load. -/
theorem load_data_count_on_success_only_witness :
    (fsCsvA "data.csv" = some csvA ∧
     (csvA.headers = [] → csvA.records = []) ∧
     lookupTable db0 "t" = some (Table.mk [])) ∧
    ((∀ n, (load_data okFalse fsCsvA db0 "t" "data.csv").result = Except.ok n →
       n = csvA.records.length) ∧
     (∀ e, (load_data okFalse fsCsvA db0 "t" "data.csv").result = Except.error e →
       ∃ pre r suf, csvA.records.map (List.map strTrim) = pre ++ r :: suf ∧
         lookupTable (load_data okFalse fsCsvA db0 "t" "data.csv").db "t"
           = some (Table.mk ((Table.mk []).rows
               ++ pre.map (mkRow (csvA.headers.map strTrim)))))) :=
  ⟨⟨by decide, by decide, by decide⟩,
   load_data_count_on_success_only okFalse fsCsvA db0 "t" "data.csv" csvA (Table.mk [])
     (by decide) (by decide) (by decide)⟩

/-- Witness for C6 at a concrete load whose first insert fails. -/
theorem load_data_failure_diagnostics_witness :
    (fsCsvA "data.csv" = some csvA ∧
     lookupTable db0 "t" = some (Table.mk []) ∧
     (load_data okFalse fsCsvA db0 "t" "data.csv").result
       = Except.error (Err.database "constraint violation")) ∧
    ((∃ msg, Err.database "constraint violation" = Err.database msg) ∧
     ∃ pre r suf, csvA.records.map (List.map strTrim) = pre ++ r :: suf ∧
       (load_data okFalse fsCsvA db0 "t" "data.csv").log
         = [(csvA.headers.map strTrim).zip r] ∧
       lookupTable (load_data okFalse fsCsvA db0 "t" "data.csv").db "t"
         = some (Table.mk ((Table.mk []).rows
             ++ pre.map (mkRow (csvA.headers.map strTrim))))) :=
  ⟨⟨by decide, by decide, by decide⟩,
   load_data_failure_diagnostics okFalse fsCsvA db0 "t" "data.csv" csvA (Table.mk [])
     (Err.database "constraint violation") (by decide) (by decide) (by decide)⟩

/-- Witness for C7 at a concrete zero-column CSV file. -/
theorem load_data_empty_header_noop_witness :
    (fsCsvEmpty "data.csv" = some (CSVFile.mk [] []) ∧ (CSVFile.mk [] []).headers = []) ∧
    load_data okTrue fsCsvEmpty db0 "t" "data.csv" = LoadOutcome.mk (.ok 0) db0 [] [] :=
  ⟨⟨by decide, by decide⟩,
   load_data_empty_header_noop okTrue fsCsvEmpty db0 "t" "data.csv" (CSVFile.mk [] [])
     (by decide) (by decide)⟩

/-- Witness for the amended C8 at the concrete plain template. -/
theorem create_table_second_call_fails_witness :
    (fsPlain "pk.sql" = some tmplPlain ∧
     render tmplPlain [("table", "u"), ("pk_type", "CHAR(1)")]
       = .ok "CREATE TABLE u (id CHAR(1))" ∧
     parseCreate "CREATE TABLE u (id CHAR(1))" = some (false, "u") ∧
     lookupTable [] "u" = none) ∧
    (create_table fsPlain [] "u" "CHAR(1)" "pk.sql"
       = .ok ([] ++ [("u", Table.mk [])]) ∧
     create_table fsPlain ([] ++ [("u", Table.mk [])]) "u" "CHAR(1)" "pk.sql"
       = .error (.database ("table exists: " ++ "u"))) :=
  ⟨⟨by decide, by decide, by decide, by decide⟩,
   create_table_second_call_fails fsPlain [] "u" "CHAR(1)" "pk.sql" tmplPlain
     "CREATE TABLE u (id CHAR(1))" "u" (by decide) (by decide) (by decide) (by decide)⟩

/-- Witness for C9 at the concrete plain template decomposition. -/
theorem render_round_trip_witness :
    (segsWf segs9 = true ∧ String.mk (segsToChars segs9) = String.mk (segsToChars segs9)) ∧
    ((holesCovered subs9 segs9 = true →
       render (String.mk (segsToChars segs9)) subs9
         = .ok (String.mk (substChars subs9 segs9))) ∧
     (∀ out, render (String.mk (segsToChars segs9)) subs9 = .ok out →
       holesCovered subs9 segs9 = true)) :=
  ⟨⟨by decide, rfl⟩, render_round_trip segs9 subs9 (String.mk (segsToChars segs9))
     (by decide) rfl⟩
